import Mathlib

/-!
Shallow embedding of the `nanex` core transaction engine
(`src/core/src/transactions/mod.rs`, `src/core/src/transactions/basic.rs`,
`src/core/src/history/transaction.rs`).

Rust `HashMap`s are modelled as association lists with overwriting insert,
`HashSet`s of ledger ids as duplicate-free lists, machine integers (`u64`
sequence numbers) as `Nat` (the code never subtracts or overflows them),
and fallible Rust functions returning `Result`/`Option` as `Except`/`Option`
valued Lean functions.  The generic `H: MultiLedgerHistory` parameter of the
source is instantiated at `MultiLedgerState`, the sole implementation of that
trait in the repository.

Parts of the repository referenced by the three source files but absent from
`src/` (the `base`, `start_htl`, `end_htl`, `operation` and `ledger` modules)
are modelled from the specification; each such definition carries a doc
comment starting with `Modelled from the spec:`.
-/

/-- Opaque ledger identifier (`LedgerId`, a `String` in the source). -/
abbrev LedgerId := String

/-- Transaction identifier (`TransactionId`). -/
abbrev TransactionId := String

/-- Opaque hash (`Hash`), used for senders / owners. -/
abbrev Hash := String

/-- Modelled from the spec: `ledger.rs` is absent from `src/`.  A `Ledger`
exposes an id, an owner and a baseline sequence number (§3, §6). -/
structure Ledger where
  id : LedgerId
  owner : Hash
  baseSeqNo : Nat
deriving DecidableEq, Repr

/-- Modelled from the spec: `operations` modules are absent from `src/`.  An
`Operation` is an atomic mutation targeting one ledger, tagged with that
id of that ledger; it is self-validating against its ledger (§3, §6) — the verdict
of that external validation is abstracted into the `valid` flag. -/
structure Operation where
  ledger_id : LedgerId
  valid : Bool
deriving DecidableEq, Repr

/-- Modelled from the spec: `history/operation.rs` is absent from `src/`.  An
`OperationHistory` owns one ledger and the ordered log of operations applied
to it (§4.1). -/
structure OperationHistory where
  ledger : Ledger
  applied : List Operation
deriving DecidableEq, Repr

/-- Modelled from the spec: `OperationHistory::new` wraps a freshly
registered ledger with an empty applied-operation log (§3 Lifecycle). -/
def OperationHistory.new (ledger : Ledger) : OperationHistory :=
  { ledger := ledger, applied := [] }

/-- Modelled from the spec: `current_seq_no()` is the baseline sequence
number plus the count of applied operations; it fails only if the underlying
ledger is unreadable, an external concern not representable here (§4.1). -/
def OperationHistory.current_seq_no (oh : OperationHistory) : Option Nat :=
  some (oh.ledger.baseSeqNo + oh.applied.length)

/-- Modelled from the spec: `apply(operation)` validates the operation
against the owned ledger and appends it to the log on success; on failure it
performs no mutation (§4.1). -/
def OperationHistory.apply (oh : OperationHistory) (op : Operation) :
    Option OperationHistory :=
  if op.valid then some { oh with applied := oh.applied ++ [op] } else none

/-- Overwriting insert into an association list: the model of
`HashMap::insert`, which replaces any previous binding of the key. -/
def insertAssoc {β : Type} (k : String) (v : β) (m : List (String × β)) :
    List (String × β) :=
  (k, v) :: m.filter (fun p => !(p.1 == k))

/-- Modelled from the spec: the `TransactionEffects` audit log type lives in
a module absent from `src/`; the source never writes it, so its entry type is
only a placeholder. -/
abbrev TransactionEffects := List (TransactionId × Bool)

/-- `MultiLedgerState` from `history/transaction.rs`: a map of
`OperationHistory`s plus the transaction-effects log. -/
structure MultiLedgerState where
  histories : List (LedgerId × OperationHistory)
  effects : TransactionEffects
deriving DecidableEq, Repr

/-- `MultiLedgerState::add_ledger`: inserts `OperationHistory::new(ledger)`
under `ledger.id()` (a `HashMap::insert`, hence overwriting). -/
def MultiLedgerState.add_ledger (s : MultiLedgerState) (ledger : Ledger) :
    MultiLedgerState :=
  { s with histories := insertAssoc ledger.id (OperationHistory.new ledger) s.histories }

/-- `MultiLedgerHistory::get` for `MultiLedgerState`. -/
def MultiLedgerState.get (s : MultiLedgerState) (ledger_id : LedgerId) :
    Option OperationHistory :=
  s.histories.lookup ledger_id

/-- `MultiLedgerHistory::has_history` for `MultiLedgerState`
(`contains_key`). -/
def MultiLedgerState.has_history (s : MultiLedgerState) (ledger_id : LedgerId) :
    Bool :=
  (s.histories.lookup ledger_id).isSome

/-- `MultiLedgerHistory::has_all_histories` for `MultiLedgerState`:
`required_ids.iter().all(|id| self.get(id).is_some())`. -/
def MultiLedgerState.has_all_histories (s : MultiLedgerState)
    (required_ids : List LedgerId) : Bool :=
  required_ids.all (fun id => (s.get id).isSome)

/-- `BasicTransaction` from `basic.rs`. -/
structure BasicTransaction where
  id : TransactionId
  sender : Hash
  seq_nos : List (LedgerId × Nat)
  operations : List Operation
deriving DecidableEq, Repr

/-- Modelled from the spec: `start_htl.rs` is absent from `src/`.  A StartHTL
transaction carries id, seq_nos and operations like every variant (§3), plus
the sender needed for its Basic-identical ownership precondition (§4.3). -/
structure StartHTLTransaction where
  id : TransactionId
  sender : Hash
  seq_nos : List (LedgerId × Nat)
  operations : List Operation
deriving DecidableEq, Repr

/-- Modelled from the spec: `end_htl.rs` is absent from `src/`.  An EndHTL
transaction additionally carries the id of its StartHTL and the outcome flag
fulfilled/failed (§3, §6). -/
structure EndHTLTransaction where
  id : TransactionId
  seq_nos : List (LedgerId × Nat)
  operations : List Operation
  start_htl_id : TransactionId
  fulfilled : Bool
deriving DecidableEq, Repr

/-- `BasicError` from `basic.rs`. -/
inductive BasicError where
  | InvalidTransaction
deriving DecidableEq, Repr

/-- Modelled from the spec: the error type of the absent `start_htl.rs`
(variant-level invalid transaction / operation, §7). -/
inductive StartHTLError where
  | InvalidTransaction
deriving DecidableEq, Repr

/-- Modelled from the spec: the error type of the absent `end_htl.rs`. -/
inductive EndHTLError where
  | InvalidTransaction
deriving DecidableEq, Repr

/-- The `Error` enum from `transactions/mod.rs`. -/
inductive Error where
  | NonExistantStartHTLError
  | InvalidStartHTLError
  | InvalidEndHTLError
  | InvalidSequenceNumberError
  | RepeatedSequenceNumberError
  | SkippedSequenceNumberError
  | BasicError (err : BasicError)
  | StartHTLError (err : StartHTLError)
  | EndHTLError (err : EndHTLError)
deriving DecidableEq, Repr

instance {ε α : Type} [DecidableEq ε] [DecidableEq α] : DecidableEq (Except ε α) :=
  fun a b =>
    match a, b with
    | Except.ok x, Except.ok y =>
      if h : x = y then isTrue (by rw [h]) else
        isFalse (by intro hc; cases hc; exact h rfl)
    | Except.error x, Except.error y =>
      if h : x = y then isTrue (by rw [h]) else
        isFalse (by intro hc; cases hc; exact h rfl)
    | Except.ok _, Except.error _ => isFalse (by intro hc; cases hc)
    | Except.error _, Except.ok _ => isFalse (by intro hc; cases hc)

/-- `BasicTransaction::validate_and_apply` from `basic.rs`: the body consists
of four comment lines describing the intended checks and then returns
`Err(Error::InvalidTransaction)` unconditionally. -/
def BasicTransaction.validate_and_apply (_tx : BasicTransaction)
    (_multiledger_history : MultiLedgerState) :
    Except BasicError MultiLedgerState :=
  Except.error BasicError.InvalidTransaction

/-- The `MultiLedgerTransaction` tagged union from `transactions/mod.rs`. -/
inductive MultiLedgerTransaction where
  | Basic (tx : BasicTransaction)
  | StartHTL (tx : StartHTLTransaction)
  | EndHTL (tx : EndHTLTransaction)
deriving DecidableEq, Repr

/-- `TransactionMap` from `transactions/mod.rs`: a `HashMap` from transaction
ids to transactions, modelled as an association list. -/
abbrev TransactionMap := List (TransactionId × MultiLedgerTransaction)

/-- `Transaction::id` dispatch for `MultiLedgerTransaction`. -/
def MultiLedgerTransaction.id : MultiLedgerTransaction → TransactionId
  | MultiLedgerTransaction.Basic tx => tx.id
  | MultiLedgerTransaction.StartHTL tx => tx.id
  | MultiLedgerTransaction.EndHTL tx => tx.id

/-- `Transaction::seq_nos` dispatch for `MultiLedgerTransaction`. -/
def MultiLedgerTransaction.seq_nos : MultiLedgerTransaction → List (LedgerId × Nat)
  | MultiLedgerTransaction.Basic tx => tx.seq_nos
  | MultiLedgerTransaction.StartHTL tx => tx.seq_nos
  | MultiLedgerTransaction.EndHTL tx => tx.seq_nos

/-- Modelled from the spec: the ledger ids named by a list of operations
(`operation_ledger_ids` of the absent `base.rs` trait), a set. -/
def operationLedgerIds (ops : List Operation) : List LedgerId :=
  (ops.map Operation.ledger_id).dedup

/-- Modelled from the spec: `base.rs` is absent from `src/`; the required
ledgers of a Basic transaction are the ledgers its operations target. -/
def BasicTransaction.required_ledger_ids (tx : BasicTransaction) :
    Option (List LedgerId) :=
  some (operationLedgerIds tx.operations)

/-- Modelled from the spec: `base.rs`/`start_htl.rs` are absent from `src/`;
the required ledgers of a StartHTL transaction are the ledgers its
operations target. -/
def StartHTLTransaction.required_ledger_ids (tx : StartHTLTransaction) :
    Option (List LedgerId) :=
  some (operationLedgerIds tx.operations)

/-- Modelled from the spec: `end_htl.rs` is absent from `src/`; the required
ledgers of an EndHTL transaction are the union of its own operation ledgers
and those of its resolved StartHTL (§4.3 step 2). -/
def EndHTLTransaction.required_ledger_ids (tx : EndHTLTransaction)
    (start_htl : StartHTLTransaction) : Option (List LedgerId) :=
  some ((operationLedgerIds tx.operations ++ operationLedgerIds start_htl.operations).dedup)

/-- `MultiLedgerTransaction::unwrap_start_htl` from `transactions/mod.rs`. -/
def MultiLedgerTransaction.unwrap_start_htl :
    MultiLedgerTransaction → Option StartHTLTransaction
  | MultiLedgerTransaction.StartHTL tx => some tx
  | _ => none

/-- The inherent two-argument `MultiLedgerTransaction::required_ledger_ids`
from `transactions/mod.rs`: Basic and StartHTL delegate to the variant; an
EndHTL first resolves its StartHTL in the transaction map. -/
def MultiLedgerTransaction.required_ledger_ids (tx : MultiLedgerTransaction)
    (transactions : TransactionMap) : Option (List LedgerId) :=
  match tx with
  | MultiLedgerTransaction.Basic tx => tx.required_ledger_ids
  | MultiLedgerTransaction.StartHTL tx => tx.required_ledger_ids
  | MultiLedgerTransaction.EndHTL tx =>
    ((transactions.lookup tx.start_htl_id).bind
        MultiLedgerTransaction.unwrap_start_htl).bind
      (fun start_htl => tx.required_ledger_ids start_htl)

/-- Shallow embedding of a Rust call outcome that may panic instead of
returning. -/
inductive PanicOr (α : Type) where
  | panicked (msg : String)
  | value (v : α)
deriving DecidableEq, Repr

/-- The one-argument `required_ledger_ids` of the `Transaction` trait as
implemented for `MultiLedgerTransaction` in `transactions/mod.rs`: its body
is a single unconditional `panic!`.  (Renamed here because the inherent
two-argument method keeps the source name.) -/
def MultiLedgerTransaction.trait_required_ledger_ids
    (_tx : MultiLedgerTransaction) : PanicOr (Option (List LedgerId)) :=
  PanicOr.panicked "Use required_ledger_ids(&self, txs: &TransactionMap)"

/-- The `get(ledger_id).and_then(|op_history| op_history.current_seq_no())`
subexpression of `is_valid_seq_no`. -/
def currentSeqOf (h : MultiLedgerState) (ledger_id : LedgerId) : Option Nat :=
  (h.get ledger_id).bind OperationHistory.current_seq_no

/-- The per-pair body of the fold inside
`MultiLedgerTransaction::is_valid_seq_no`: compare the asserted sequence
number against `current_seq_no + 1`, threading earlier failures through
`and_then`. -/
def seq_no_step (h : MultiLedgerState) (acc : Except Error Unit)
    (p : LedgerId × Nat) : Except Error Unit :=
  acc.bind (fun _ =>
    match currentSeqOf h p.1 with
    | none => Except.error Error.InvalidSequenceNumberError
    | some ledger_seq_no =>
      if p.2 < ledger_seq_no + 1 then
        Except.error Error.RepeatedSequenceNumberError
      else if ledger_seq_no + 1 < p.2 then
        Except.error Error.SkippedSequenceNumberError
      else
        Except.ok ())

/-- The body of `MultiLedgerTransaction::is_valid_seq_no` over an explicit
seq_nos list: filter to the ledgers the state knows about, then fold the
per-pair check conjunctively. -/
def seq_no_check (h : MultiLedgerState) (sns : List (LedgerId × Nat)) :
    Except Error Unit :=
  (sns.filter (fun p => h.has_history p.1)).foldl (seq_no_step h) (Except.ok ())

/-- `MultiLedgerTransaction::is_valid_seq_no` from `transactions/mod.rs`. -/
def MultiLedgerTransaction.is_valid_seq_no (tx : MultiLedgerTransaction)
    (multiledger_history : MultiLedgerState) : Except Error Unit :=
  seq_no_check multiledger_history tx.seq_nos

/-- Modelled from the spec: apply a list of operations in order to one
forked `OperationHistory`; any single invalid operation fails the whole
application (§4.1, §4.3). -/
def applyAll (ops : List Operation) (oh : OperationHistory) :
    Option OperationHistory :=
  ops.foldlM OperationHistory.apply oh

/-- Modelled from the spec: the `(LedgerId, branch key)` identity of a
branch `OperationHistory` (§3), encoded as a composite key string. -/
def branchKey (ledger_id : LedgerId) (htl_id : TransactionId) : LedgerId :=
  ledger_id ++ "#" ++ htl_id

/-- Modelled from the spec: fork the current history of every referenced
ledger, apply the operations of that ledger to the fork, and collect the
forks as branches keyed by the id of the StartHTL; if any single fork fails, none
are produced (§4.3 StartHTL). -/
def forkBranches (tx : StartHTLTransaction) (lids : List LedgerId)
    (h : MultiLedgerState) : Option (List (LedgerId × OperationHistory)) :=
  lids.foldlM
    (fun acc lid =>
      match h.get lid with
      | none => none
      | some oh =>
        (applyAll (tx.operations.filter (fun op => op.ledger_id == lid)) oh).map
          (fun oh2 => acc ++ [(branchKey lid tx.id, oh2)]))
    []

/-- Modelled from the spec: `start_htl.rs` is absent from `src/`.  §4.3
StartHTL: preconditions identical to Basic (the ledger of every operation listed
in seq_nos, sender is the recorded owner of every referenced ledger; the
sequence check itself is run by the caller), then fork-and-register all
referenced ledgers as one atomic step, leaving canonical histories
untouched. -/
def StartHTLTransaction.validate_and_apply (tx : StartHTLTransaction)
    (multiledger_history : MultiLedgerState) :
    Except StartHTLError MultiLedgerState :=
  if !(tx.operations.all (fun op => (tx.seq_nos.lookup op.ledger_id).isSome)) then
    Except.error StartHTLError.InvalidTransaction
  else if !(tx.seq_nos.all (fun p =>
      ((multiledger_history.get p.1).map (fun oh => oh.ledger.owner)) == some tx.sender)) then
    Except.error StartHTLError.InvalidTransaction
  else
    match forkBranches tx ((tx.seq_nos.map Prod.fst).dedup) multiledger_history with
    | none => Except.error StartHTLError.InvalidTransaction
    | some branches =>
      Except.ok { multiledger_history with
                  histories := branches ++ multiledger_history.histories }

/-- Modelled from the spec: promote every branch keyed by `htl_id` to the
canonical history of its ledger, dropping the branch entries (§4.3 EndHTL
fulfilled; sibling bookkeeping, which needs arrival order, is out of reach
of this state-level function and branches are modelled one level deep). -/
def promoteBranches (htl_id : TransactionId)
    (hs : List (LedgerId × OperationHistory)) :
    List (LedgerId × OperationHistory) :=
  (hs.filterMap
      (fun p =>
        if p.1.endsWith ("#" ++ htl_id) then
          some (p.1.dropRight ("#" ++ htl_id).length, p.2)
        else none)).foldl
    (fun acc q => insertAssoc q.1 q.2 acc)
    (hs.filter (fun p => !(p.1.endsWith ("#" ++ htl_id))))

/-- Modelled from the spec: `end_htl.rs` is absent from `src/`.  §4.3 EndHTL
resolution against the resolved StartHTL: a failed outcome prunes every
branch keyed by the id of the StartHTL, a fulfilled outcome promotes each such
branch to canonical; canonical histories of untouched ledgers are
unaffected and no operations are applied. -/
def EndHTLTransaction.validate_and_apply (tx : EndHTLTransaction)
    (start_htl : StartHTLTransaction) (multiledger_history : MultiLedgerState) :
    Except EndHTLError MultiLedgerState :=
  if tx.fulfilled then
    Except.ok { multiledger_history with
                histories := promoteBranches start_htl.id multiledger_history.histories }
  else
    Except.ok { multiledger_history with
                histories := multiledger_history.histories.filter
                  (fun p => !(p.1.endsWith ("#" ++ start_htl.id))) }

/-- `MultiLedgerTransaction::validate_and_apply` from `transactions/mod.rs`:
first the global sequence-number check, then variant dispatch; an EndHTL
resolves its StartHTL in the transaction map (`ok_or(InvalidStartHTLError)`)
before its own apply runs. -/
def MultiLedgerTransaction.validate_and_apply (tx : MultiLedgerTransaction)
    (transactions : TransactionMap) (multiledger_history : MultiLedgerState) :
    Except Error MultiLedgerState :=
  (tx.is_valid_seq_no multiledger_history).bind (fun _ =>
    match tx with
    | MultiLedgerTransaction.Basic tx =>
      (tx.validate_and_apply multiledger_history).mapError Error.BasicError
    | MultiLedgerTransaction.StartHTL tx =>
      (tx.validate_and_apply multiledger_history).mapError Error.StartHTLError
    | MultiLedgerTransaction.EndHTL tx =>
      match (transactions.lookup tx.start_htl_id).bind
          MultiLedgerTransaction.unwrap_start_htl with
      | none => Except.error Error.InvalidStartHTLError
      | some start_htl =>
        (tx.validate_and_apply start_htl multiledger_history).mapError
          Error.EndHTLError)

/-- `MultiLedgerTransaction::validate_and_apply_new` from
`transactions/mod.rs`: resolve the required ledger ids
(`ok_or(InvalidEndHTLError)`), require all of them to be known to the state,
and only then delegate to `validate_and_apply`. -/
def MultiLedgerTransaction.validate_and_apply_new (tx : MultiLedgerTransaction)
    (transactions : TransactionMap) (multiledger_history : MultiLedgerState) :
    Except Error MultiLedgerState :=
  match tx.required_ledger_ids transactions with
  | none => Except.error Error.InvalidEndHTLError
  | some required_ledger_ids =>
    if multiledger_history.has_all_histories required_ledger_ids then
      tx.validate_and_apply transactions multiledger_history
    else
      Except.error Error.InvalidEndHTLError

/-- `TransactionHistory` from `history/transaction.rs`: the owned
`MultiLedgerState`, the `TransactionMap` of accepted transactions and the
per-ledger `TransactionOrders`. -/
structure TransactionHistory where
  multiledger_histories : MultiLedgerState
  transactions : TransactionMap
  transaction_orders : List (LedgerId × List TransactionId)
deriving DecidableEq, Repr

/-- Modelled from the spec: the affected ledgers of a transaction, the set
of ledgers it references through its sequence-number assertions (§3, §4.4). -/
def affectedLedgerIds (tx : MultiLedgerTransaction) : List LedgerId :=
  (tx.seq_nos.map Prod.fst).dedup

/-- Modelled from the spec: append a transaction id to the
`TransactionOrder` of one ledger (arrival order, §3). -/
def appendOrder (ledger_id : LedgerId) (tx_id : TransactionId)
    (orders : List (LedgerId × List TransactionId)) :
    List (LedgerId × List TransactionId) :=
  insertAssoc ledger_id (((orders.lookup ledger_id).getD []) ++ [tx_id]) orders

/-- Modelled from the spec: append a transaction id to the
`TransactionOrder` of every affected ledger. -/
def appendOrders : List LedgerId → TransactionId →
    List (LedgerId × List TransactionId) → List (LedgerId × List TransactionId)
  | [], _, orders => orders
  | lid :: lids, tx_id, orders => appendOrders lids tx_id (appendOrder lid tx_id orders)

/-- Modelled from the spec: the `TransactionHistory`-level
`validate_and_apply` of §4.4 is not implemented under `src/` (the methods
there are stubs returning `Err(())`), so it is modelled from the words of
the spec: run `MultiLedgerTransaction::validate_and_apply` against the owned
state and — only on success — install the new state, insert the transaction
into the map and append its id to the order of every affected ledger.  The
`&mut self` receiver is embedded as a state-in/state-out pair. -/
def TransactionHistory.validate_and_apply (th : TransactionHistory)
    (tx : MultiLedgerTransaction) : TransactionHistory × Option Error :=
  match tx.validate_and_apply th.transactions th.multiledger_histories with
  | Except.error e => (th, some e)
  | Except.ok h2 =>
    ({ multiledger_histories := h2,
       transactions := insertAssoc tx.id tx th.transactions,
       transaction_orders := appendOrders (affectedLedgerIds tx) tx.id th.transaction_orders },
     none)

/-- Modelled from the spec: the `TransactionHistory`-level
`validate_and_apply_new` of §4.4, like `TransactionHistory.validate_and_apply`
but entered through `MultiLedgerTransaction::validate_and_apply_new`. -/
def TransactionHistory.validate_and_apply_new (th : TransactionHistory)
    (tx : MultiLedgerTransaction) : TransactionHistory × Option Error :=
  match tx.validate_and_apply_new th.transactions th.multiledger_histories with
  | Except.error e => (th, some e)
  | Except.ok h2 =>
    ({ multiledger_histories := h2,
       transactions := insertAssoc tx.id tx th.transactions,
       transaction_orders := appendOrders (affectedLedgerIds tx) tx.id th.transaction_orders },
     none)

/-- A concrete ledger for witnesses: id `A`, owner `alice`, baseline 5. -/
def ledgerA : Ledger := { id := "A", owner := "alice", baseSeqNo := 5 }

/-- A concrete valid operation on ledger `A`. -/
def opA : Operation := { ledger_id := "A", valid := true }

/-- A Basic transaction that satisfies every §4.3 precondition against
`mls1`: its one operation targets `A`, which is listed in seq_nos at the
next sequence number 6, and the sender is the owner of `A`. -/
def basicTx1 : BasicTransaction :=
  { id := "tx1", sender := "alice", seq_nos := [("A", 6)], operations := [opA] }

/-- A Basic transaction referencing only the unknown ledger `Z`. -/
def basicTx2 : BasicTransaction :=
  { id := "tx2", sender := "bob", seq_nos := [("Z", 3)], operations := [] }

/-- A concrete state knowing only ledger `A`, at current sequence number 5. -/
def mls1 : MultiLedgerState :=
  { histories := [("A", OperationHistory.new ledgerA)], effects := [] }

/-- A concrete transaction history owning `mls1` and nothing else. -/
def th1 : TransactionHistory :=
  { multiledger_histories := mls1, transactions := [], transaction_orders := [] }

/-- A StartHTL transaction that succeeds against `mls1`. -/
def startTx1 : StartHTLTransaction :=
  { id := "s1", sender := "alice", seq_nos := [("A", 6)], operations := [opA] }

/-- An EndHTL transaction with empty seq_nos whose StartHTL id `S` is
unresolved. -/
def endTx1 : EndHTLTransaction :=
  { id := "e1", seq_nos := [], operations := [], start_htl_id := "S",
    fulfilled := true }

/-- An EndHTL transaction with unresolved StartHTL id `S` that also violates
the sequence check on ledger `A` (asserts 1 where 6 is required). -/
def endTx2 : EndHTLTransaction :=
  { id := "e2", seq_nos := [("A", 1)], operations := [], start_htl_id := "S",
    fulfilled := true }

/-- A concrete ledger colliding with the id of `ledgerA` but with a different
owner and baseline, for the duplicate-registration case. -/
def ledgerA2 : Ledger := { id := "A", owner := "carol", baseSeqNo := 0 }

theorem seq_no_step_error_absorb (h : MultiLedgerState) (e : Error)
    (p : LedgerId × Nat) : seq_no_step h (Except.error e) p = Except.error e :=
  rfl

theorem foldl_seq_no_step_error (h : MultiLedgerState) (e : Error)
    (l : List (LedgerId × Nat)) :
    l.foldl (seq_no_step h) (Except.error e) = Except.error e := by
  induction l with
  | nil => rfl
  | cons q l ih => rw [List.foldl_cons, seq_no_step_error_absorb]; exact ih

theorem foldl_seq_no_step_ok (h : MultiLedgerState) (l : List (LedgerId × Nat)) :
    l.foldl (seq_no_step h) (Except.ok ()) = Except.ok () ↔
      ∀ p ∈ l, seq_no_step h (Except.ok ()) p = Except.ok () := by
  induction l with
  | nil => simp
  | cons q l ih =>
    rw [List.foldl_cons]
    cases hq : seq_no_step h (Except.ok ()) q with
    | ok u =>
      cases u
      rw [ih]
      constructor
      · intro hall p hp
        rcases List.mem_cons.mp hp with hpq | hp2
        · rw [hpq]; exact hq
        · exact hall p hp2
      · intro hall p hp
        exact hall p (List.mem_cons_of_mem q hp)
    | error e =>
      rw [foldl_seq_no_step_error]
      constructor
      · intro hc; exact absurd hc (by intro hc2; exact Except.noConfusion hc2)
      · intro hall
        have := hall q (List.mem_cons_self q l)
        rw [hq] at this
        exact absurd this (by intro hc2; exact Except.noConfusion hc2)

/-- C1: for every transaction and state, (i) for a ledger whose current
sequence number resolves to `c`, the per-ledger step of the sequence check
fails with `RepeatedSequenceNumberError` when the asserted number is below
`c + 1`, fails with `SkippedSequenceNumberError` when it is above, and
passes when they are equal; (ii) `is_valid_seq_no` succeeds iff that step
passes for every referenced ledger the state knows about — the per-ledger
checks are conjoined, so one failing ledger fails the whole transaction. -/
theorem is_valid_seq_no_characterization (tx : MultiLedgerTransaction)
    (h : MultiLedgerState) :
    (∀ l n c, currentSeqOf h l = some c →
      seq_no_step h (Except.ok ()) (l, n) =
        (if n < c + 1 then Except.error Error.RepeatedSequenceNumberError
         else if c + 1 < n then Except.error Error.SkippedSequenceNumberError
         else Except.ok ())) ∧
    (tx.is_valid_seq_no h = Except.ok () ↔
      ∀ p ∈ tx.seq_nos, h.has_history p.1 = true →
        seq_no_step h (Except.ok ()) p = Except.ok ()) := by
  constructor
  · intro l n c hc
    simp only [seq_no_step, Except.bind, hc]
  · unfold MultiLedgerTransaction.is_valid_seq_no seq_no_check
    rw [foldl_seq_no_step_ok]
    constructor
    · intro hf p hp hh
      exact hf p (List.mem_filter.mpr ⟨hp, hh⟩)
    · intro hall p hp
      obtain ⟨hp1, hp2⟩ := List.mem_filter.mp hp
      exact hall p hp1 hp2

/-- C1 witness: against `mls1` (ledger `A` at sequence number 5) the
per-ledger step accepts the asserted number 6. -/
theorem is_valid_seq_no_characterization_witness :
    seq_no_step mls1 (Except.ok ()) ("A", 6) = Except.ok () :=
  (is_valid_seq_no_characterization (MultiLedgerTransaction.Basic basicTx1)
    mls1).1 "A" 6 5 rfl

/-- C6: the sequence check runs only over the (ledger, seq_no) pairs whose
ledger is known to the state: (i) a pair whose ledger has no registered
history is silently dropped from the check, and (ii) a transaction whose
seq_nos reference only unknown ledgers passes the check vacuously. -/
theorem is_valid_seq_no_skips_unknown_ledgers (tx : MultiLedgerTransaction)
    (h : MultiLedgerState) :
    (∀ sns p, h.has_history p.1 = false →
      seq_no_check h (p :: sns) = seq_no_check h sns) ∧
    ((∀ p ∈ tx.seq_nos, h.has_history p.1 = false) →
      tx.is_valid_seq_no h = Except.ok ()) := by
  constructor
  · intro sns p hp
    unfold seq_no_check
    rw [List.filter_cons_of_neg]
    simp [hp]
  · intro hall
    unfold MultiLedgerTransaction.is_valid_seq_no seq_no_check
    rw [List.filter_eq_nil_iff.mpr]
    · rfl
    · intro p hp
      simp [hall p hp]

/-- C6 witness: a transaction asserting a sequence number only for the
unregistered ledger `Z` passes the sequence check against `mls1`. -/
theorem is_valid_seq_no_skips_unknown_ledgers_witness :
    (MultiLedgerTransaction.Basic basicTx2).is_valid_seq_no mls1 = Except.ok () :=
  (is_valid_seq_no_skips_unknown_ledgers (MultiLedgerTransaction.Basic basicTx2)
    mls1).2 (by
      intro p hp
      simp only [MultiLedgerTransaction.seq_nos, basicTx2, List.mem_singleton] at hp
      rw [hp]
      rfl)

/-- C5: `validate_and_apply_new` first resolves the required ledger ids of
the transaction (failing with `InvalidEndHTLError` when the StartHTL of an EndHTL
cannot be resolved), fails with `InvalidEndHTLError` whenever some required
ledger has no history in the state, and delegates to `validate_and_apply`
exactly when all required ledgers are present. -/
theorem validate_and_apply_new_gates_on_required_ledgers
    (tx : MultiLedgerTransaction) (txs : TransactionMap)
    (h : MultiLedgerState) :
    (tx.required_ledger_ids txs = none →
      tx.validate_and_apply_new txs h = Except.error Error.InvalidEndHTLError) ∧
    (∀ ids, tx.required_ledger_ids txs = some ids →
      (h.has_all_histories ids = false →
        tx.validate_and_apply_new txs h = Except.error Error.InvalidEndHTLError) ∧
      (h.has_all_histories ids = true →
        tx.validate_and_apply_new txs h = tx.validate_and_apply txs h)) := by
  constructor
  · intro hreq
    simp only [MultiLedgerTransaction.validate_and_apply_new, hreq]
  · intro ids hids
    constructor <;> intro hall <;>
      simp only [MultiLedgerTransaction.validate_and_apply_new, hids, hall] <;>
      simp

/-- C5 witness: an EndHTL whose StartHTL id `S` is absent from the map fails
`validate_and_apply_new` with `InvalidEndHTLError` before any other check. -/
theorem validate_and_apply_new_gates_on_required_ledgers_witness :
    (MultiLedgerTransaction.EndHTL endTx1).validate_and_apply_new [] mls1 =
      Except.error Error.InvalidEndHTLError :=
  (validate_and_apply_new_gates_on_required_ledgers
    (MultiLedgerTransaction.EndHTL endTx1) [] mls1).1 rfl

/-- C3 counterexample: the StartHTL id `S` of `endTx2` is absent from the empty
transaction map, yet `validate_and_apply` fails with
`RepeatedSequenceNumberError` — not `InvalidStartHTLError` — because the
global sequence check runs first and `endTx2` asserts 1 on ledger `A`
whose current sequence number is 5. -/
theorem endhtl_invalid_start_error_cex :
    ((([] : TransactionMap).lookup endTx2.start_htl_id).bind
        MultiLedgerTransaction.unwrap_start_htl = none) ∧
    (MultiLedgerTransaction.EndHTL endTx2).validate_and_apply [] mls1 =
      Except.error Error.RepeatedSequenceNumberError ∧
    (MultiLedgerTransaction.EndHTL endTx2).validate_and_apply [] mls1 ≠
      Except.error Error.InvalidStartHTLError := by
  refine ⟨rfl, rfl, ?_⟩
  intro hc
  rw [show (MultiLedgerTransaction.EndHTL endTx2).validate_and_apply [] mls1 =
      Except.error Error.RepeatedSequenceNumberError from rfl] at hc
  exact Error.noConfusion (Except.error.inj hc)

/-- C3 (amended): an EndHTL whose StartHTL id is absent from the
transaction map, or resolves to a non-StartHTL, always fails
`validate_and_apply` (so its variant-level apply never contributes a
result), and the error is `InvalidStartHTLError` whenever the preceding
global sequence-number check passes. -/
theorem endhtl_unresolved_start_fails (e : EndHTLTransaction)
    (txs : TransactionMap) (h : MultiLedgerState)
    (hres : (txs.lookup e.start_htl_id).bind
      MultiLedgerTransaction.unwrap_start_htl = none) :
    (∃ err, (MultiLedgerTransaction.EndHTL e).validate_and_apply txs h =
      Except.error err) ∧
    ((MultiLedgerTransaction.EndHTL e).is_valid_seq_no h = Except.ok () →
      (MultiLedgerTransaction.EndHTL e).validate_and_apply txs h =
        Except.error Error.InvalidStartHTLError) := by
  constructor
  · cases hseq : (MultiLedgerTransaction.EndHTL e).is_valid_seq_no h with
    | ok u =>
      cases u
      refine ⟨Error.InvalidStartHTLError, ?_⟩
      simp only [MultiLedgerTransaction.validate_and_apply, hseq, Except.bind, hres]
    | error err =>
      refine ⟨err, ?_⟩
      simp only [MultiLedgerTransaction.validate_and_apply, hseq, Except.bind]
  · intro hseq
    simp only [MultiLedgerTransaction.validate_and_apply, hseq, Except.bind, hres]

/-- C3 witness: with the sequence check passing (empty seq_nos) and the
StartHTL id `S` unresolved, `validate_and_apply` fails with
`InvalidStartHTLError`. -/
theorem endhtl_unresolved_start_fails_witness :
    (MultiLedgerTransaction.EndHTL endTx1).validate_and_apply [] mls1 =
      Except.error Error.InvalidStartHTLError :=
  (endhtl_unresolved_start_fails endTx1 [] mls1 rfl).2 rfl

/-- C4 (code-bug evidence): `basicTx1` satisfies every stated precondition
against `mls1` — the ledger `A` of its operation is listed in seq_nos, the
sender is the recorded owner of `A`, and the asserted sequence number 6 equals
`current_seq_no + 1` — yet `BasicTransaction::validate_and_apply` still
returns `InvalidTransaction`: the source body is an unimplemented stub that
rejects unconditionally. -/
theorem basic_validate_and_apply_rejects_valid_tx :
    basicTx1.operations.all
      (fun op => (basicTx1.seq_nos.lookup op.ledger_id).isSome) = true ∧
    basicTx1.seq_nos.all
      (fun p => ((mls1.get p.1).map (fun oh => oh.ledger.owner)) ==
        some basicTx1.sender) = true ∧
    (MultiLedgerTransaction.Basic basicTx1).is_valid_seq_no mls1 =
      Except.ok () ∧
    basicTx1.validate_and_apply mls1 =
      Except.error BasicError.InvalidTransaction :=
  ⟨rfl, rfl, rfl, rfl⟩

/-- C8: `has_all_histories` is true exactly when every id in the required
set has an `OperationHistory` entry in the state; in particular it is true
for the empty set. -/
theorem has_all_histories_characterization (s : MultiLedgerState)
    (ids : List LedgerId) :
    (s.has_all_histories ids = true ↔
      ∀ id ∈ ids, (s.get id).isSome = true) ∧
    s.has_all_histories [] = true := by
  refine ⟨?_, rfl⟩
  unfold MultiLedgerState.has_all_histories
  exact List.all_eq_true

/-- C8 witness: `mls1` has all histories of the set containing only `A`. -/
theorem has_all_histories_characterization_witness :
    mls1.has_all_histories ["A"] = true :=
  (has_all_histories_characterization mls1 ["A"]).1.mpr (by
    intro i hi
    rw [List.mem_singleton.mp hi]
    rfl)

theorem lookup_insertAssoc_self {β : Type} (k : String) (v : β)
    (m : List (String × β)) : (insertAssoc k v m).lookup k = some v := by
  simp [insertAssoc, List.lookup]

theorem lookup_filter_drop_key {β : Type} (k k2 : String)
    (m : List (String × β)) (hne : k2 ≠ k) :
    (m.filter (fun p => !(p.1 == k))).lookup k2 = m.lookup k2 := by
  induction m with
  | nil => rfl
  | cons q m ih =>
    obtain ⟨qk, qv⟩ := q
    by_cases hqk : qk = k
    · rw [List.filter_cons_of_neg (by simp [hqk])]
      rw [ih]
      rw [List.lookup_cons]
      simp [show (k2 == qk) = false from by simp [hqk ▸ hne]]
    · rw [List.filter_cons_of_pos (by simp [hqk])]
      rw [List.lookup_cons, List.lookup_cons]
      cases hk2 : k2 == qk <;> simp [hk2, ih]

theorem lookup_insertAssoc_ne {β : Type} (k k2 : String) (v : β)
    (m : List (String × β)) (hne : k2 ≠ k) :
    (insertAssoc k v m).lookup k2 = m.lookup k2 := by
  unfold insertAssoc
  rw [List.lookup_cons]
  simp only [show (k2 == k) = false from beq_false_of_ne hne]
  exact lookup_filter_drop_key k k2 m hne

/-- C9: `add_ledger` registers the fresh `OperationHistory` of the new ledger
under its id, silently overwriting any existing entry for that id (the
`HashMap::insert` policy), and leaves the entry of every other ledger unchanged. -/
theorem add_ledger_overwrite (s : MultiLedgerState) (ledger : Ledger) :
    (s.add_ledger ledger).get ledger.id = some (OperationHistory.new ledger) ∧
    ∀ lid, lid ≠ ledger.id → (s.add_ledger ledger).get lid = s.get lid := by
  constructor
  · exact lookup_insertAssoc_self ledger.id (OperationHistory.new ledger) s.histories
  · intro lid hne
    exact lookup_insertAssoc_ne ledger.id lid (OperationHistory.new ledger)
      s.histories hne

/-- C9 witness: registering `ledgerA2` into `mls1`, whose id `A` is already
registered with a different owner and baseline, replaces the history of `A` with
the fresh one and leaves the unrelated lookup of `B` unchanged. -/
theorem add_ledger_overwrite_witness :
    (mls1.add_ledger ledgerA2).get "A" = some (OperationHistory.new ledgerA2) ∧
    (mls1.add_ledger ledgerA2).get "B" = mls1.get "B" :=
  ⟨(add_ledger_overwrite mls1 ledgerA2).1,
   (add_ledger_overwrite mls1 ledgerA2).2 "B" (by decide)⟩

/-- C10: the one-argument `required_ledger_ids` of the `Transaction` trait, as
implemented for `MultiLedgerTransaction`, panics unconditionally: on every
transaction it reaches the `panic!` and never returns a value. -/
theorem trait_required_ledger_ids_panics (tx : MultiLedgerTransaction) :
    tx.trait_required_ledger_ids =
      PanicOr.panicked "Use required_ledger_ids(&self, txs: &TransactionMap)" ∧
    ∀ v, tx.trait_required_ledger_ids ≠ PanicOr.value v :=
  ⟨rfl, fun _ hc => PanicOr.noConfusion hc⟩

/-- C10 witness: evaluated on a concrete transaction, the trait method
panics. -/
theorem trait_required_ledger_ids_panics_witness :
    (MultiLedgerTransaction.Basic basicTx1).trait_required_ledger_ids =
      PanicOr.panicked "Use required_ledger_ids(&self, txs: &TransactionMap)" :=
  (trait_required_ledger_ids_panics (MultiLedgerTransaction.Basic basicTx1)).1

theorem lookup_appendOrder_self (lid : LedgerId) (tx_id : TransactionId)
    (orders : List (LedgerId × List TransactionId)) :
    (appendOrder lid tx_id orders).lookup lid =
      some (((orders.lookup lid).getD []) ++ [tx_id]) :=
  lookup_insertAssoc_self lid _ orders

theorem lookup_appendOrder_ne (lid lid2 : LedgerId) (tx_id : TransactionId)
    (orders : List (LedgerId × List TransactionId)) (hne : lid2 ≠ lid) :
    (appendOrder lid tx_id orders).lookup lid2 = orders.lookup lid2 :=
  lookup_insertAssoc_ne lid lid2 _ orders hne

theorem lookup_appendOrders_not_mem (tx_id : TransactionId) (lid : LedgerId)
    (lids : List LedgerId) (orders : List (LedgerId × List TransactionId))
    (hnm : lid ∉ lids) :
    (appendOrders lids tx_id orders).lookup lid = orders.lookup lid := by
  induction lids generalizing orders with
  | nil => rfl
  | cons a lids ih =>
    have hne : lid ≠ a := fun hc => hnm (hc ▸ List.mem_cons_self a lids)
    rw [show appendOrders (a :: lids) tx_id orders =
        appendOrders lids tx_id (appendOrder a tx_id orders) from rfl]
    rw [ih _ (fun hc => hnm (List.mem_cons_of_mem a hc))]
    exact lookup_appendOrder_ne a lid tx_id orders hne

theorem lookup_appendOrders_mem (tx_id : TransactionId) (lid : LedgerId)
    (lids : List LedgerId) (orders : List (LedgerId × List TransactionId))
    (hmem : lid ∈ lids) (hnd : lids.Nodup) :
    (appendOrders lids tx_id orders).lookup lid =
      some (((orders.lookup lid).getD []) ++ [tx_id]) := by
  induction lids generalizing orders with
  | nil => cases hmem
  | cons a lids ih =>
    rw [show appendOrders (a :: lids) tx_id orders =
        appendOrders lids tx_id (appendOrder a tx_id orders) from rfl]
    rcases List.mem_cons.mp hmem with heq | hmem2
    · have hnotin : lid ∉ lids := heq ▸ (List.nodup_cons.mp hnd).1
      rw [lookup_appendOrders_not_mem tx_id lid lids _ hnotin]
      rw [heq]
      exact lookup_appendOrder_self a tx_id orders
    · have hne : lid ≠ a := by
        intro hc
        exact (List.nodup_cons.mp hnd).1 (hc ▸ hmem2)
      rw [ih (appendOrder a tx_id orders) hmem2 (List.nodup_cons.mp hnd).2]
      rw [lookup_appendOrder_ne a lid tx_id orders hne]

/-- C2: if either transaction-history entry point reports an error, the
observable state — all `OperationHistory`s, the transaction map and every
`TransactionOrder` — is exactly the state before the call: failures mutate
nothing. -/
theorem validate_and_apply_failure_no_mutation (th : TransactionHistory)
    (tx : MultiLedgerTransaction) :
    (∀ e, (th.validate_and_apply tx).2 = some e →
      (th.validate_and_apply tx).1 = th) ∧
    (∀ e, (th.validate_and_apply_new tx).2 = some e →
      (th.validate_and_apply_new tx).1 = th) := by
  constructor
  · intro e he
    unfold TransactionHistory.validate_and_apply at he ⊢
    cases hres : tx.validate_and_apply th.transactions th.multiledger_histories with
    | ok h2 =>
      rw [hres] at he
      exact Option.noConfusion he
    | error e2 => rfl
  · intro e he
    unfold TransactionHistory.validate_and_apply_new at he ⊢
    cases hres : tx.validate_and_apply_new th.transactions th.multiledger_histories with
    | ok h2 =>
      rw [hres] at he
      exact Option.noConfusion he
    | error e2 => rfl

/-- C2 witness: `basicTx1` fails (the Basic apply is rejected) and the
history it was submitted to is returned unchanged. -/
theorem validate_and_apply_failure_no_mutation_witness :
    (th1.validate_and_apply (MultiLedgerTransaction.Basic basicTx1)).1 = th1 :=
  (validate_and_apply_failure_no_mutation th1
    (MultiLedgerTransaction.Basic basicTx1)).1
    (Error.BasicError BasicError.InvalidTransaction) rfl

/-- C7: when `TransactionHistory.validate_and_apply` succeeds, the
transaction is found in the transaction map under its id and its id is
appended to the `TransactionOrder` of every affected ledger; when it fails,
neither the map nor any `TransactionOrder` changes. -/
theorem th_validate_and_apply_records (th : TransactionHistory)
    (tx : MultiLedgerTransaction) :
    ((th.validate_and_apply tx).2 = none →
      (th.validate_and_apply tx).1.transactions.lookup tx.id = some tx ∧
      ∀ lid ∈ affectedLedgerIds tx,
        (th.validate_and_apply tx).1.transaction_orders.lookup lid =
          some (((th.transaction_orders.lookup lid).getD []) ++ [tx.id])) ∧
    (∀ e, (th.validate_and_apply tx).2 = some e →
      (th.validate_and_apply tx).1.transactions = th.transactions ∧
      (th.validate_and_apply tx).1.transaction_orders = th.transaction_orders) := by
  unfold TransactionHistory.validate_and_apply
  cases hres : tx.validate_and_apply th.transactions th.multiledger_histories with
  | ok h2 =>
    constructor
    · intro _
      constructor
      · exact lookup_insertAssoc_self tx.id tx th.transactions
      · intro lid hlid
        exact lookup_appendOrders_mem tx.id lid (affectedLedgerIds tx)
          th.transaction_orders hlid (List.nodup_dedup _)
    · intro e he
      exact Option.noConfusion he
  | error e2 =>
    constructor
    · intro hnone
      exact Option.noConfusion hnone
    · intro e _
      exact ⟨rfl, rfl⟩

/-- C7 witness: submitting the succeeding StartHTL `startTx1` to `th1`
records it in the map under `s1` and appends `s1` to the order of ledger `A`. -/
theorem th_validate_and_apply_records_witness :
    (th1.validate_and_apply (MultiLedgerTransaction.StartHTL startTx1)).1.transactions.lookup
        "s1" = some (MultiLedgerTransaction.StartHTL startTx1) ∧
    (th1.validate_and_apply (MultiLedgerTransaction.StartHTL startTx1)).1.transaction_orders.lookup
        "A" = some ["s1"] :=
  ⟨((th_validate_and_apply_records th1
      (MultiLedgerTransaction.StartHTL startTx1)).1 rfl).1,
   ((th_validate_and_apply_records th1
      (MultiLedgerTransaction.StartHTL startTx1)).1 rfl).2 "A" (by decide)⟩
